import Mathlib

/-!
Verification of the rtnetlink message decoding layer of phosphor-networkd
(src/rtnetlink.cpp), against its natural-language specification.

Buffers are modelled as `List Nat` (one `Nat` per byte).  The fixed message
headers (`rtmsg`, `ifaddrmsg`, `ndmsg`) are modelled as structures holding the
fields the decoders read: the C++ entry points take one raw buffer and first
peel the fixed header off with `extractRtData<T>` (declared in netlink.hpp,
which is not part of this source tree); we model the post-extraction state,
passing the header structure and the remaining attribute bytes separately.
The attribute walk itself (`extractRtAttr`) and the family-keyed address
constructor (`addrFromBuf`) are likewise declared outside this tree and are
modelled from the specification's contracts for them.
-/

namespace Netlink

/-- Linux address family constants used by the decoders. -/
def AF_INET : Nat := 2

/-- IPv6 address family constant. -/
def AF_INET6 : Nat := 10

/-- Main routing table identifier. -/
def RT_TABLE_MAIN : Nat := 254

/-- Route attribute type: outgoing interface index. -/
def RTA_OIF : Nat := 4

/-- Route attribute type: gateway address. -/
def RTA_GATEWAY : Nat := 5

/-- Address attribute type: interface address. -/
def IFA_ADDRESS : Nat := 1

/-- Address attribute type: 32-bit extended flags. -/
def IFA_FLAGS : Nat := 8

/-- Neighbor attribute type: destination (protocol) address. -/
def NDA_DST : Nat := 1

/-- Neighbor attribute type: link-layer address. -/
def NDA_LLADDR : Nat := 2

/-- Round `n` up to the next multiple of 4 (netlink attribute alignment,
RTA_ALIGN). -/
def align4 (n : Nat) : Nat := (n + 3) / 4 * 4

/-- Decode a little-endian 16-bit value from the first two bytes. -/
def decodeU16 (a b : Nat) : Nat := a + 256 * b

/-- Encode a 16-bit value as two little-endian bytes. -/
def encodeU16 (n : Nat) : List Nat := [n % 256, n / 256 % 256]

/-- Decode a little-endian 32-bit value from a 4-byte list (used for
`copyFromStrict<int>` / `copyFromStrict<uint32_t>` payload interpretation). -/
def decodeU32 (l : List Nat) : Nat :=
  match l with
  | [a, b, c, d] => a + 256 * b + 65536 * c + 16777216 * d
  | _ => 0

/-- Failure outcomes of a decode, modelling the C++ exceptions thrown by the
extraction helpers and the decoders.  A thrown exception aborts the decode of
the single message, distinguishable from a normal empty-optional result. -/
inductive DecodeError where
  /-- Buffer too small for a fixed header or an attribute record header. -/
  | truncatedBuffer
  /-- Attribute record length below the header size, past the end of the
  buffer, or with an aligned end past the end of the buffer. -/
  | badAttrLength
  /-- Address family outside AF_INET and AF_INET6 in `addrFromBuf`. -/
  | unsupportedFamily
  /-- Address payload length not matching the family width in `addrFromBuf`. -/
  | familyLengthMismatch
  /-- Exact-size copy (`stdplus::raw::copyFromStrict`) with a payload of the
  wrong size. -/
  | strictSizeMismatch
  /-- Lenient copy (`stdplus::raw::copyFrom`) with a payload shorter than the
  destination. -/
  | copyTooShort
  /-- Address message with no IFA_ADDRESS attribute ("Missing address"). -/
  | missingAddress
  deriving DecidableEq, Repr

/-- Tagged union of an IPv4 (4-byte) or IPv6 (16-byte) address, holding the
raw payload bytes (`InAddrAny` in the source). -/
inductive InAddrAny where
  | v4 (a : List Nat)
  | v6 (a : List Nat)
  deriving DecidableEq, Repr

/-- Attribute record header: `struct rtattr { u16 rta_len; u16 rta_type; }`. -/
structure RtAttrHdr where
  rta_len : Nat
  rta_type : Nat
  deriving DecidableEq, Repr

/-- Modelled from the spec: `extractRtAttr` (netlink.hpp, not under src/),
the `nextAttribute(buffer) -> (AttributeRecord, remainder)` contract: read a
`(length : u16, type : u16)` record header (length first, per the wire-format
section), fail if `length < 4` (the header size) or `length > buffer.len()`;
the payload is `buffer[4 .. length]`; the remainder begins at
`align_up(length, 4)`, failing if that exceeds the buffer length.  A non-empty
buffer smaller than a record header is a decode failure. -/
def extractRtAttr (buf : List Nat) :
    Except DecodeError (RtAttrHdr × List Nat × List Nat) :=
  match buf with
  | l0 :: l1 :: t0 :: t1 :: _ =>
    let len := decodeU16 l0 l1
    let ty := decodeU16 t0 t1
    if len < 4 then .error .badAttrLength
    else if len > buf.length then .error .badAttrLength
    else if align4 len > buf.length then .error .badAttrLength
    else .ok (⟨len, ty⟩, (buf.take len).drop 4, buf.drop (align4 len))
  | _ => .error .truncatedBuffer

/-- Modelled from the spec: `addrFromBuf` (util.hpp, not under src/), the
Address Family Adapter: AF_INET requires a 4-byte payload and yields the V4
variant; AF_INET6 requires a 16-byte payload and yields the V6 variant; any
other family, or a payload length mismatched against the family, is a decode
failure. -/
def addrFromBuf (family : Nat) (data : List Nat) :
    Except DecodeError InAddrAny :=
  if family = AF_INET then
    if data.length = 4 then .ok (.v4 data) else .error .familyLengthMismatch
  else if family = AF_INET6 then
    if data.length = 16 then .ok (.v6 data) else .error .familyLengthMismatch
  else .error .unsupportedFamily

/-- Modelled from stdplus (not under src/): `copyFromStrict<T>` for a 4-byte
integer type; requires the payload to be exactly 4 bytes. -/
def copyFromStrictU32 (data : List Nat) : Except DecodeError Nat :=
  if data.length = 4 then .ok (decodeU32 data) else .error .strictSizeMismatch

/-- On a successful extraction from a non-empty buffer, the remainder is
strictly shorter than the input (the aligned record length is at least 4). -/
theorem extractRtAttr_shrinks {buf : List Nat} {hdr : RtAttrHdr}
    {data rest : List Nat} (h : extractRtAttr buf = .ok (hdr, data, rest)) :
    rest.length < buf.length := by
  match buf with
  | [] => simp [extractRtAttr] at h
  | [_] => simp [extractRtAttr] at h
  | [_, _] => simp [extractRtAttr] at h
  | [_, _, _] => simp [extractRtAttr] at h
  | l0 :: l1 :: t0 :: t1 :: tl =>
    simp only [extractRtAttr] at h
    split at h
    · exact absurd h (by simp)
    · split at h
      · exact absurd h (by simp)
      · split at h
        · exact absurd h (by simp)
        · rename_i hlt hle hal
          simp only [Except.ok.injEq, Prod.mk.injEq] at h
          obtain ⟨-, -, hrest⟩ := h
          subst hrest
          have h4 : 4 ≤ align4 (decodeU16 l0 l1) := by
            unfold align4
            omega
          simp only [List.length_drop]
          simp only [List.length_cons] at hal ⊢
          omega

/-- Generic attribute-walk loop: the C++ pattern
`while (!msg.empty()) { auto [hdr, data] = extractRtAttr(msg); ...switch... }`
with `step` standing for the switch body updating the scan state. -/
def scanAttrs {S : Type} (step : S → RtAttrHdr → List Nat → Except DecodeError S)
    (s : S) (buf : List Nat) : Except DecodeError S :=
  match hb : buf with
  | [] => .ok s
  | _ :: _ =>
    match hx : extractRtAttr buf with
    | .error e => .error e
    | .ok (hdr, data, rest) =>
      match step s hdr data with
      | .error e => .error e
      | .ok s' => scanAttrs step s' rest
  termination_by buf.length
  decreasing_by
    simp only [← hb] at hx ⊢
    exact extractRtAttr_shrinks hx

/-! Route decoder (`gatewayFromRtm`, src/rtnetlink.cpp lines 11-53). -/

/-- Fixed route message header `struct rtmsg` (fields as in linux/rtnetlink.h);
the decoder reads `rtm_family`, `rtm_dst_len` and `rtm_table`. -/
structure Rtmsg where
  rtm_family : Nat
  rtm_dst_len : Nat
  rtm_src_len : Nat
  rtm_tos : Nat
  rtm_table : Nat
  rtm_protocol : Nat
  rtm_scope : Nat
  rtm_type : Nat
  rtm_flags : Nat
  deriving DecidableEq, Repr

/-- Scan state of the templated `parse<Addr>` loop: the two local optionals. -/
structure RouteState where
  ifIdx : Option Nat
  gw : Option InAddrAny
  deriving DecidableEq, Repr

/-- Switch body of `parse<Addr>` (rtnetlink.cpp lines 20-28): RTA_OIF stores
the interface index via an exact 4-byte copy; RTA_GATEWAY stores the gateway
via an exact `sizeof(Addr)`-byte copy (`asize` is 4 for `in_addr`, 16 for
`in6_addr`, `mk` the corresponding `InAddrAny` constructor); every other
attribute type falls through the switch unchanged. -/
def routeStep (asize : Nat) (mk : List Nat → InAddrAny) (s : RouteState)
    (hdr : RtAttrHdr) (data : List Nat) : Except DecodeError RouteState :=
  if hdr.rta_type = RTA_OIF then
    (copyFromStrictU32 data).map fun v => { s with ifIdx := some v }
  else if hdr.rta_type = RTA_GATEWAY then
    if data.length = asize then .ok { s with gw := some (mk data) }
    else .error .strictSizeMismatch
  else .ok s

/-- Templated `parse<Addr>` (rtnetlink.cpp lines 11-35): walk the attributes,
then return the pair only if both optionals were populated. -/
def parse (asize : Nat) (mk : List Nat → InAddrAny) (msg : List Nat) :
    Except DecodeError (Option (Nat × InAddrAny)) := do
  let s ← scanAttrs (routeStep asize mk) ⟨none, none⟩ msg
  match s.ifIdx, s.gw with
  | some i, some g => pure (some (i, g))
  | _, _ => pure none

/-- Route decoder `gatewayFromRtm` (rtnetlink.cpp lines 37-53), after the
fixed `rtmsg` header has been peeled off the buffer: filter to the main-table
default route, then dispatch on the family, with unlisted families falling
through the switch to `return std::nullopt`. -/
def gatewayFromRtm (rtm : Rtmsg) (msg : List Nat) :
    Except DecodeError (Option (Nat × InAddrAny)) :=
  if rtm.rtm_table ≠ RT_TABLE_MAIN ∨ rtm.rtm_dst_len ≠ 0 then .ok none
  else if rtm.rtm_family = AF_INET then parse 4 InAddrAny.v4 msg
  else if rtm.rtm_family = AF_INET6 then parse 16 InAddrAny.v6 msg
  else .ok none

/-! Address decoder (`addrFromRtm`, src/rtnetlink.cpp lines 55-82). -/

/-- Fixed address message header `struct ifaddrmsg`: family, prefix length,
8-bit flags, scope and interface index. -/
structure Ifaddrmsg where
  ifa_family : Nat
  ifa_prefixlen : Nat
  ifa_flags : Nat
  ifa_scope : Nat
  ifa_index : Nat
  deriving DecidableEq, Repr

/-- Decoded address record (`AddressInfo` in the source); `ifaddr` pairs the
address with the prefix length. -/
structure AddressInfo where
  ifidx : Nat
  flags : Nat
  scope : Nat
  ifaddr : InAddrAny × Nat
  deriving DecidableEq, Repr

/-- Scan state of the `addrFromRtm` loop: the mutable flags field of the
result under construction together with the local `addr` optional. -/
structure AddrScanState where
  flags : Nat
  addr : Option InAddrAny
  deriving DecidableEq, Repr

/-- Loop body of `addrFromRtm` (rtnetlink.cpp lines 64-75): IFA_ADDRESS
decodes the payload via `addrFromBuf` keyed by the header family; IFA_FLAGS
overwrites the flags with an exact 4-byte copy; other types are ignored. -/
def addrStep (family : Nat) (s : AddrScanState) (hdr : RtAttrHdr)
    (data : List Nat) : Except DecodeError AddrScanState :=
  if hdr.rta_type = IFA_ADDRESS then
    (addrFromBuf family data).map fun a => { s with addr := some a }
  else if hdr.rta_type = IFA_FLAGS then
    (copyFromStrictU32 data).map fun v => { s with flags := v }
  else .ok s

/-- Address decoder `addrFromRtm` (rtnetlink.cpp lines 55-82), after the fixed
`ifaddrmsg` header has been peeled off: flags start from the 8-bit header
field, the scan may overwrite them and set the address, and a missing address
attribute throws ("Missing address"). -/
def addrFromRtm (ifa : Ifaddrmsg) (msg : List Nat) :
    Except DecodeError AddressInfo := do
  let s ← scanAttrs (addrStep ifa.ifa_family) ⟨ifa.ifa_flags, none⟩ msg
  match s.addr with
  | none => .error .missingAddress
  | some a => pure ⟨ifa.ifa_index, s.flags, ifa.ifa_scope, (a, ifa.ifa_prefixlen)⟩

/-! Neighbor decoder (`neighFromRtm`, src/rtnetlink.cpp lines 84-104). -/

/-- Fixed neighbor message header `struct ndmsg`: family, interface index,
state, flags and type. -/
structure Ndmsg where
  ndm_family : Nat
  ndm_ifindex : Nat
  ndm_state : Nat
  ndm_flags : Nat
  ndm_type : Nat
  deriving DecidableEq, Repr

/-- Decoded neighbor record (`NeighborInfo` in the source): the MAC (6 raw
bytes) and the protocol address are both optional. -/
structure NeighborInfo where
  ifidx : Nat
  state : Nat
  mac : Option (List Nat)
  addr : Option InAddrAny
  deriving DecidableEq, Repr

/-- Loop body of `neighFromRtm` (rtnetlink.cpp lines 91-102): NDA_LLADDR
copies the first 6 payload bytes with the lenient `copyFrom<ether_addr>`,
which accepts any payload of at least 6 bytes and fails on a shorter one;
NDA_DST decodes via `addrFromBuf`; other types are ignored. -/
def neighStep (family : Nat) (s : NeighborInfo) (hdr : RtAttrHdr)
    (data : List Nat) : Except DecodeError NeighborInfo :=
  if hdr.rta_type = NDA_LLADDR then
    if 6 ≤ data.length then .ok { s with mac := some (data.take 6) }
    else .error .copyTooShort
  else if hdr.rta_type = NDA_DST then
    (addrFromBuf family data).map fun a => { s with addr := some a }
  else .ok s

/-- Neighbor decoder `neighFromRtm` (rtnetlink.cpp lines 84-104), after the
fixed `ndmsg` header has been peeled off: interface index and state come from
the header, the optional MAC and address from the attribute scan. -/
def neighFromRtm (ndm : Ndmsg) (msg : List Nat) :
    Except DecodeError NeighborInfo :=
  scanAttrs (neighStep ndm.ndm_family) ⟨ndm.ndm_ifindex, ndm.ndm_state, none, none⟩ msg

/-! Attribute streams at the record level, and their wire serialization. -/

/-- One attribute record as a (type, payload) pair. -/
structure AttrRec where
  ty : Nat
  payload : List Nat
  deriving DecidableEq, Repr

/-- Record whose type and declared length fit the 16-bit wire fields. -/
def AttrRec.WF (r : AttrRec) : Prop :=
  r.ty < 65536 ∧ 4 + r.payload.length < 65536

instance (r : AttrRec) : Decidable r.WF := by
  unfold AttrRec.WF
  infer_instance

/-- Wire encoding of one attribute record: little-endian length (header
included) and type, the payload, then zero padding to the 4-byte boundary. -/
def serializeAttr (r : AttrRec) : List Nat :=
  encodeU16 (4 + r.payload.length) ++ encodeU16 r.ty ++ r.payload ++
    List.replicate (align4 (4 + r.payload.length) - (4 + r.payload.length)) 0

/-- Wire encoding of an attribute stream. -/
def serializeAttrs (rs : List AttrRec) : List Nat :=
  (rs.map serializeAttr).flatten

/-- Record-level counterpart of `scanAttrs`: fold the step over the records,
presenting each one with the header it would carry on the wire. -/
def scanRecs {S : Type} (step : S → RtAttrHdr → List Nat → Except DecodeError S)
    (s : S) : List AttrRec → Except DecodeError S
  | [] => .ok s
  | r :: rs =>
    match step s ⟨4 + r.payload.length, r.ty⟩ r.payload with
    | .error e => .error e
    | .ok s' => scanRecs step s' rs

/-! Basic facts about alignment, the 16-bit encoding and serialization. -/

theorem le_align4 (n : Nat) : n ≤ align4 n := by
  unfold align4
  omega

theorem align4_pos (n : Nat) (h : 4 ≤ n) : 4 ≤ align4 n := by
  unfold align4
  omega

theorem decode_encodeU16 (n : Nat) (h : n < 65536) :
    decodeU16 (n % 256) (n / 256 % 256) = n := by
  unfold decodeU16
  omega

theorem length_serializeAttr (r : AttrRec) :
    (serializeAttr r).length = align4 (4 + r.payload.length) := by
  have := le_align4 (4 + r.payload.length)
  simp [serializeAttr, encodeU16]
  omega

theorem serializeAttrs_cons (r : AttrRec) (rs : List AttrRec) :
    serializeAttrs (r :: rs) = serializeAttr r ++ serializeAttrs rs := by
  simp [serializeAttrs]

/-- Extracting from a serialized record followed by anything yields exactly
that record's header, its payload, and the trailing bytes. -/
theorem extract_serializeAttr (r : AttrRec) (rest : List Nat) (hwf : r.WF) :
    extractRtAttr (serializeAttr r ++ rest) =
      .ok (⟨4 + r.payload.length, r.ty⟩, r.payload, rest) := by
  obtain ⟨hty, hlen⟩ := hwf
  set len := 4 + r.payload.length with hlendef
  have hbuf : serializeAttr r ++ rest =
      len % 256 :: len / 256 % 256 :: r.ty % 256 :: r.ty / 256 % 256 ::
        (r.payload ++ List.replicate (align4 len - len) 0 ++ rest) := by
    simp [serializeAttr, encodeU16, hlendef]
  have hlenbuf : (serializeAttr r ++ rest).length = align4 len + rest.length := by
    simp [length_serializeAttr, hlendef]
  have hd16 : decodeU16 (len % 256) (len / 256 % 256) = len :=
    decode_encodeU16 len hlen
  have ht16 : decodeU16 (r.ty % 256) (r.ty / 256 % 256) = r.ty :=
    decode_encodeU16 r.ty hty
  have halign := le_align4 len
  rw [hbuf]
  rw [extractRtAttr]
  simp only [hd16, ht16]
  rw [← hbuf, hlenbuf]
  have h1 : ¬ len < 4 := by omega
  have h2 : ¬ len > align4 len + rest.length := by omega
  have h3 : ¬ align4 len > align4 len + rest.length := by omega
  simp only [h1, h2, h3, if_false]
  have htake : ((serializeAttr r ++ rest).take len).drop 4 = r.payload := by
    have hsa : serializeAttr r ++ rest =
        (encodeU16 len ++ encodeU16 r.ty ++ r.payload) ++
          (List.replicate (align4 len - len) 0 ++ rest) := by
      simp [serializeAttr, hlendef]
    have hfront : (encodeU16 len ++ encodeU16 r.ty ++ r.payload).length = len := by
      simp [encodeU16, hlendef]
      omega
    rw [hsa, List.take_left' hfront]
    simp [encodeU16]
  have hdrop : (serializeAttr r ++ rest).drop (align4 len) = rest := by
    exact List.drop_left' (length_serializeAttr r)
  rw [htake, hdrop]

/-! Unfolding equations for the attribute walk, and the correspondence between
the byte-level walk and the record-level fold on serialized streams. -/

theorem scanAttrs_nil {S : Type}
    (step : S → RtAttrHdr → List Nat → Except DecodeError S) (s : S) :
    scanAttrs step s [] = .ok s := by
  rw [scanAttrs]

theorem scanAttrs_cons_eq {S : Type}
    (step : S → RtAttrHdr → List Nat → Except DecodeError S)
    (s : S) (b : Nat) (bs : List Nat) (hdr : RtAttrHdr) (data rest : List Nat)
    (hx : extractRtAttr (b :: bs) = .ok (hdr, data, rest)) :
    scanAttrs step s (b :: bs) =
      match step s hdr data with
      | .error e => .error e
      | .ok s' => scanAttrs step s' rest := by
  rw [scanAttrs.eq_def]
  split
  · rename_i heq
    simp at heq
  · split
    · rename_i heq
      rw [hx] at heq
      cases heq
    · rename_i s1 a1 heq
      rw [hx] at heq
      cases heq
      rfl

theorem scanAttrs_serialize_cons {S : Type}
    (step : S → RtAttrHdr → List Nat → Except DecodeError S)
    (s : S) (r : AttrRec) (tail : List Nat) (hwf : r.WF) :
    scanAttrs step s (serializeAttr r ++ tail) =
      match step s ⟨4 + r.payload.length, r.ty⟩ r.payload with
      | .error e => .error e
      | .ok s' => scanAttrs step s' tail := by
  have hx := extract_serializeAttr r tail hwf
  have hshape : serializeAttr r ++ tail =
      (4 + r.payload.length) % 256 :: ((4 + r.payload.length) / 256 % 256 ::
        (r.ty % 256 :: (r.ty / 256 % 256 ::
          (r.payload ++ List.replicate
            (align4 (4 + r.payload.length) - (4 + r.payload.length)) 0 ++
              tail)))) := by
    simp [serializeAttr, encodeU16]
  rw [hshape] at hx ⊢
  exact scanAttrs_cons_eq _ s _ _ _ _ _ hx

/-- The byte-level walk over a serialized stream of well-formed records agrees
with the record-level fold. -/
theorem scanAttrs_serializeAttrs {S : Type}
    (step : S → RtAttrHdr → List Nat → Except DecodeError S)
    (rs : List AttrRec) (hwf : ∀ r ∈ rs, r.WF) :
    ∀ s : S, scanAttrs step s (serializeAttrs rs) = scanRecs step s rs := by
  induction rs with
  | nil => intro s; simpa [serializeAttrs] using scanAttrs_nil step s
  | cons r rs ih =>
    intro s
    rw [serializeAttrs_cons,
        scanAttrs_serialize_cons step s r _ (hwf r (by simp))]
    rw [scanRecs]
    cases step s ⟨4 + r.payload.length, r.ty⟩ r.payload with
    | error e => rfl
    | ok s' => exact ih (fun x hx => hwf x (by simp [hx])) s'

theorem scanRecs_append {S : Type}
    (step : S → RtAttrHdr → List Nat → Except DecodeError S)
    (xs ys : List AttrRec) :
    ∀ s : S, scanRecs step s (xs ++ ys) =
      match scanRecs step s xs with
      | .error e => .error e
      | .ok s' => scanRecs step s' ys := by
  induction xs with
  | nil => intro s; rfl
  | cons r rs ih =>
    intro s
    rw [List.cons_append, scanRecs, scanRecs]
    cases step s ⟨4 + r.payload.length, r.ty⟩ r.payload with
    | error e => rfl
    | ok s' => exact ih s'

/-- Records the step ignores can be dropped from a record stream without
changing the outcome of the fold. -/
theorem scanRecs_filter {S : Type}
    (step : S → RtAttrHdr → List Nat → Except DecodeError S)
    (p : AttrRec → Bool)
    (hign : ∀ (s : S) (r : AttrRec), p r = false →
      step s ⟨4 + r.payload.length, r.ty⟩ r.payload = .ok s)
    (rs : List AttrRec) :
    ∀ s : S, scanRecs step s rs = scanRecs step s (rs.filter p) := by
  induction rs with
  | nil => intro s; rfl
  | cons r rs ih =>
    intro s
    by_cases hp : p r
    · rw [List.filter_cons_of_pos hp, scanRecs, scanRecs]
      cases step s ⟨4 + r.payload.length, r.ty⟩ r.payload with
      | error e => rfl
      | ok s' => exact ih s'
    · rw [List.filter_cons_of_neg (by simpa using hp), scanRecs,
          hign s r (by simpa using hp)]
      exact ih s

/-! Last-occurrence-wins folds over record streams, used to characterize the
scan state produced by each decoder. -/

/-- Value of the last record of type `t` in the stream, seen through `v`,
starting from `acc` (the overwrite semantics of the decoders' switch). -/
def lastWins {α : Type} (t : Nat) (v : List Nat → α) (acc : α)
    (rs : List AttrRec) : α :=
  rs.foldl (fun a r => if r.ty = t then v r.payload else a) acc

theorem lastWins_nil {α : Type} (t : Nat) (v : List Nat → α) (acc : α) :
    lastWins t v acc [] = acc := rfl

theorem lastWins_cons {α : Type} (t : Nat) (v : List Nat → α) (acc : α)
    (r : AttrRec) (rs : List AttrRec) :
    lastWins t v acc (r :: rs) =
      lastWins t v (if r.ty = t then v r.payload else acc) rs := rfl

theorem lastWins_append {α : Type} (t : Nat) (v : List Nat → α) (acc : α)
    (xs ys : List AttrRec) :
    lastWins t v acc (xs ++ ys) = lastWins t v (lastWins t v acc xs) ys := by
  simp [lastWins, List.foldl_append]

theorem lastWins_of_not_mem {α : Type} (t : Nat) (v : List Nat → α) (acc : α)
    (ys : List AttrRec) (h : ∀ r ∈ ys, r.ty ≠ t) :
    lastWins t v acc ys = acc := by
  induction ys generalizing acc with
  | nil => rfl
  | cons r rs ih =>
    rw [lastWins_cons, if_neg (h r (by simp)), ih _ fun x hx => h x (by simp [hx])]

/-- On a stream ending its type-`t` records with payload `p`, the fold yields
`v p` whatever came before. -/
theorem lastWins_last {α : Type} (t : Nat) (v : List Nat → α) (acc : α)
    (xs ys : List AttrRec) (p : List Nat) (h : ∀ r ∈ ys, r.ty ≠ t) :
    lastWins t v acc (xs ++ ⟨t, p⟩ :: ys) = v p := by
  rw [lastWins_append, lastWins_cons, if_pos rfl, lastWins_of_not_mem _ _ _ _ h]

theorem lastWins_some_acc {β : Type} (t : Nat) (v : List Nat → β)
    (xs : List AttrRec) :
    ∀ (w0 : β), ∃ w, lastWins t (fun p => some (v p)) (some w0) xs = some w := by
  induction xs with
  | nil => intro w0; exact ⟨w0, rfl⟩
  | cons r rs ih =>
    intro w0
    rw [lastWins_cons]
    by_cases hr : r.ty = t
    · rw [if_pos hr]; exact ih (v r.payload)
    · rw [if_neg hr]; exact ih w0

theorem lastWins_some_of_mem {β : Type} (t : Nat) (v : List Nat → β)
    (acc : Option β) (xs : List AttrRec) (h : ∃ r ∈ xs, r.ty = t) :
    ∃ w, lastWins t (fun p => some (v p)) acc xs = some w := by
  induction xs generalizing acc with
  | nil => simp at h
  | cons r rs ih =>
    rw [lastWins_cons]
    by_cases hr : r.ty = t
    · rw [if_pos hr]; exact lastWins_some_acc t v rs (v r.payload)
    · obtain ⟨x, hx, hxt⟩ := h
      rcases List.mem_cons.mp hx with hxr | hxmem
      · exact absurd (hxr ▸ hxt) hr
      · rw [if_neg hr]; exact ih _ ⟨x, hxmem, hxt⟩

/-! Field behavior of the individual decode steps. -/

/-- Address value produced by a successful `addrFromBuf`: the payload tagged
by the family. -/
def addrVal (family : Nat) (p : List Nat) : InAddrAny :=
  if family = AF_INET then .v4 p else .v6 p

theorem addrFromBuf_ok {family : Nat} {data : List Nat} {a : InAddrAny}
    (h : addrFromBuf family data = .ok a) : a = addrVal family data := by
  unfold addrFromBuf at h
  unfold addrVal
  split at h
  · rename_i hf
    rw [if_pos hf]
    split at h
    · cases h; rfl
    · cases h
  · rename_i hf
    rw [if_neg hf]
    split at h
    · split at h
      · cases h; rfl
      · cases h
    · cases h

theorem routeStep_ok {asize : Nat} {mk : List Nat → InAddrAny} {s s1 : RouteState}
    {hdr : RtAttrHdr} {data : List Nat}
    (h : routeStep asize mk s hdr data = .ok s1) :
    s1.ifIdx = (if hdr.rta_type = RTA_OIF then some (decodeU32 data) else s.ifIdx) ∧
    s1.gw = (if hdr.rta_type = RTA_GATEWAY then some (mk data) else s.gw) := by
  unfold routeStep at h
  split at h
  · rename_i ht
    unfold copyFromStrictU32 at h
    split at h
    · cases h
      simp [ht, RTA_OIF, RTA_GATEWAY]
    · cases h
  · split at h
    · rename_i ht1 ht2
      split at h
      · cases h
        simp [ht1, ht2, RTA_OIF, RTA_GATEWAY]
      · cases h
    · rename_i ht1 ht2
      cases h
      simp [ht1, ht2]

theorem addrStep_ok {family : Nat} {s s1 : AddrScanState}
    {hdr : RtAttrHdr} {data : List Nat}
    (h : addrStep family s hdr data = .ok s1) :
    s1.addr = (if hdr.rta_type = IFA_ADDRESS then some (addrVal family data) else s.addr) ∧
    s1.flags = (if hdr.rta_type = IFA_FLAGS then decodeU32 data else s.flags) := by
  unfold addrStep at h
  split at h
  · rename_i ht
    cases ha : addrFromBuf family data with
    | error e => rw [ha] at h; cases h
    | ok a =>
      rw [ha] at h
      cases h
      simp [ht, IFA_ADDRESS, IFA_FLAGS, addrFromBuf_ok ha]
  · split at h
    · rename_i ht1 ht2
      unfold copyFromStrictU32 at h
      split at h
      · cases h
        simp [ht1, ht2, IFA_ADDRESS, IFA_FLAGS]
      · cases h
    · rename_i ht1 ht2
      cases h
      simp [ht1, ht2]

theorem neighStep_ok {family : Nat} {s s1 : NeighborInfo}
    {hdr : RtAttrHdr} {data : List Nat}
    (h : neighStep family s hdr data = .ok s1) :
    s1.mac = (if hdr.rta_type = NDA_LLADDR then some (data.take 6) else s.mac) ∧
    s1.addr = (if hdr.rta_type = NDA_DST then some (addrVal family data) else s.addr) ∧
    s1.ifidx = s.ifidx ∧ s1.state = s.state := by
  unfold neighStep at h
  split at h
  · rename_i ht
    split at h
    · cases h
      simp [ht, NDA_LLADDR, NDA_DST]
    · cases h
  · split at h
    · rename_i ht1 ht2
      cases ha : addrFromBuf family data with
      | error e => rw [ha] at h; cases h
      | ok a =>
        rw [ha] at h
        cases h
        simp [ht1, ht2, NDA_LLADDR, NDA_DST, addrFromBuf_ok ha]
    · rename_i ht1 ht2
      cases h
      simp [ht1, ht2]

/-! Characterization of the scan state computed by each decoder: every tracked
field holds the value of the last attribute of its type, the overwrite
semantics of the switch statements. -/

theorem routeScan_char (asize : Nat) (mk : List Nat → InAddrAny)
    (rs : List AttrRec) :
    ∀ (s s' : RouteState), scanRecs (routeStep asize mk) s rs = .ok s' →
      s'.ifIdx = lastWins RTA_OIF (fun p => some (decodeU32 p)) s.ifIdx rs ∧
      s'.gw = lastWins RTA_GATEWAY (fun p => some (mk p)) s.gw rs := by
  induction rs with
  | nil =>
    intro s s' h
    simp only [scanRecs, Except.ok.injEq] at h
    subst h
    simp [lastWins_nil]
  | cons r rs ih =>
    intro s s' h
    rw [scanRecs] at h
    cases hstep : routeStep asize mk s ⟨4 + r.payload.length, r.ty⟩ r.payload with
    | error e => rw [hstep] at h; cases h
    | ok s1 =>
      rw [hstep] at h
      obtain ⟨h1, h2⟩ := ih s1 s' h
      obtain ⟨hf1, hf2⟩ := routeStep_ok hstep
      constructor
      · rw [h1, lastWins_cons]
        simp only [RtAttrHdr.rta_type] at hf1
        rw [hf1]
      · rw [h2, lastWins_cons]
        simp only [RtAttrHdr.rta_type] at hf2
        rw [hf2]

theorem addrScan_char (family : Nat) (rs : List AttrRec) :
    ∀ (s s' : AddrScanState), scanRecs (addrStep family) s rs = .ok s' →
      s'.flags = lastWins IFA_FLAGS decodeU32 s.flags rs ∧
      s'.addr = lastWins IFA_ADDRESS (fun p => some (addrVal family p)) s.addr rs := by
  induction rs with
  | nil =>
    intro s s' h
    simp only [scanRecs, Except.ok.injEq] at h
    subst h
    simp [lastWins_nil]
  | cons r rs ih =>
    intro s s' h
    rw [scanRecs] at h
    cases hstep : addrStep family s ⟨4 + r.payload.length, r.ty⟩ r.payload with
    | error e => rw [hstep] at h; cases h
    | ok s1 =>
      rw [hstep] at h
      obtain ⟨h1, h2⟩ := ih s1 s' h
      obtain ⟨hf1, hf2⟩ := addrStep_ok hstep
      constructor
      · rw [h1, lastWins_cons]
        simp only [RtAttrHdr.rta_type] at hf2
        rw [hf2]
      · rw [h2, lastWins_cons]
        simp only [RtAttrHdr.rta_type] at hf1
        rw [hf1]

theorem neighScan_char (family : Nat) (rs : List AttrRec) :
    ∀ (s s' : NeighborInfo), scanRecs (neighStep family) s rs = .ok s' →
      s'.mac = lastWins NDA_LLADDR (fun p => some (p.take 6)) s.mac rs ∧
      s'.addr = lastWins NDA_DST (fun p => some (addrVal family p)) s.addr rs ∧
      s'.ifidx = s.ifidx ∧ s'.state = s.state := by
  induction rs with
  | nil =>
    intro s s' h
    simp only [scanRecs, Except.ok.injEq] at h
    subst h
    simp [lastWins_nil]
  | cons r rs ih =>
    intro s s' h
    rw [scanRecs] at h
    cases hstep : neighStep family s ⟨4 + r.payload.length, r.ty⟩ r.payload with
    | error e => rw [hstep] at h; cases h
    | ok s1 =>
      rw [hstep] at h
      obtain ⟨h1, h2, h3, h4⟩ := ih s1 s' h
      obtain ⟨hf1, hf2, hf3, hf4⟩ := neighStep_ok hstep
      refine ⟨?_, ?_, by rw [h3, hf3], by rw [h4, hf4]⟩
      · rw [h1, lastWins_cons]
        simp only [RtAttrHdr.rta_type] at hf1
        rw [hf1]
      · rw [h2, lastWins_cons]
        simp only [RtAttrHdr.rta_type] at hf2
        rw [hf2]

/-! Totality of the scans when every recognized payload is well-sized. -/

theorem routeScan_total (asize : Nat) (mk : List Nat → InAddrAny)
    (rs : List AttrRec)
    (hOif : ∀ r ∈ rs, r.ty = RTA_OIF → r.payload.length = 4)
    (hGw : ∀ r ∈ rs, r.ty = RTA_GATEWAY → r.payload.length = asize) :
    ∀ s : RouteState, ∃ s', scanRecs (routeStep asize mk) s rs = .ok s' := by
  induction rs with
  | nil => intro s; exact ⟨s, rfl⟩
  | cons r rs ih =>
    intro s
    have hstep : ∃ s1,
        routeStep asize mk s ⟨4 + r.payload.length, r.ty⟩ r.payload = .ok s1 := by
      unfold routeStep
      by_cases h1 : r.ty = RTA_OIF
      · simp [h1, copyFromStrictU32, Except.map, hOif r (by simp) h1]
      · by_cases h2 : r.ty = RTA_GATEWAY
        · simp [h1, h2, RTA_OIF, RTA_GATEWAY, hGw r (by simp) h2]
        · simp [h1, h2]
    obtain ⟨s1, hs1⟩ := hstep
    obtain ⟨s', hs'⟩ := ih (fun x hx t => hOif x (by simp [hx]) t)
      (fun x hx t => hGw x (by simp [hx]) t) s1
    exact ⟨s', by rw [scanRecs, hs1]; exact hs'⟩

theorem addrScan_total (family : Nat) (rs : List AttrRec)
    (hAddr : ∀ r ∈ rs, r.ty = IFA_ADDRESS →
      ∃ a, addrFromBuf family r.payload = .ok a)
    (hFlags : ∀ r ∈ rs, r.ty = IFA_FLAGS → r.payload.length = 4) :
    ∀ s : AddrScanState, ∃ s', scanRecs (addrStep family) s rs = .ok s' := by
  induction rs with
  | nil => intro s; exact ⟨s, rfl⟩
  | cons r rs ih =>
    intro s
    have hstep : ∃ s1,
        addrStep family s ⟨4 + r.payload.length, r.ty⟩ r.payload = .ok s1 := by
      unfold addrStep
      by_cases h1 : r.ty = IFA_ADDRESS
      · obtain ⟨a, ha⟩ := hAddr r (by simp) h1
        simp [h1, ha, Except.map]
      · by_cases h2 : r.ty = IFA_FLAGS
        · simp [h1, h2, IFA_ADDRESS, IFA_FLAGS, copyFromStrictU32, Except.map,
            hFlags r (by simp) h2]
        · simp [h1, h2]
    obtain ⟨s1, hs1⟩ := hstep
    obtain ⟨s', hs'⟩ := ih (fun x hx t => hAddr x (by simp [hx]) t)
      (fun x hx t => hFlags x (by simp [hx]) t) s1
    exact ⟨s', by rw [scanRecs, hs1]; exact hs'⟩

/-! Claim theorems. -/

/-- C1 counterexample: a route message whose header passes the default-route
filter (main table, zero destination prefix) but carries family 0 (outside
AF_INET and AF_INET6) decodes to the plain "no result" outcome `Except.ok
none`, not to a decode failure: the unsupported family falls out of the
switch in `gatewayFromRtm` into `return std::nullopt`. -/
theorem claim_C1_counterexample :
    gatewayFromRtm ⟨0, 0, 0, 0, 254, 0, 0, 0, 0⟩ [] =
      Except.ok (none : Option (Nat × InAddrAny)) := rfl

/-- C1 (amended): for every route message whose fixed header passes the
default-route filter (table == RT_TABLE_MAIN and destination prefix length
== 0), if the header's family field is outside AF_INET and AF_INET6 then
`gatewayFromRtm` yields the normal "no result" outcome (the empty optional),
exactly as for a filtered-out route, and never a decode failure. -/
theorem claim_C1 (rtm : Rtmsg) (msg : List Nat)
    (htab : rtm.rtm_table = RT_TABLE_MAIN) (hdst : rtm.rtm_dst_len = 0)
    (hf4 : rtm.rtm_family ≠ AF_INET) (hf6 : rtm.rtm_family ≠ AF_INET6) :
    gatewayFromRtm rtm msg = .ok none := by
  unfold gatewayFromRtm
  rw [if_neg (by simp [htab, hdst]), if_neg hf4, if_neg hf6]

/-- C1 witness: concrete instance of the amended claim, family 0 with junk
attribute bytes. -/
theorem claim_C1_witness :
    gatewayFromRtm ⟨0, 0, 0, 0, 254, 0, 0, 0, 0⟩ [9, 9, 9] = .ok none :=
  claim_C1 ⟨0, 0, 0, 0, 254, 0, 0, 0, 0⟩ [9, 9, 9] rfl rfl
    (by decide) (by decide)

/-- C2: a route message whose header has a nonzero destination prefix length
or a table other than RT_TABLE_MAIN decodes to "no result" whatever the
attribute bytes are — they are never scanned, so they can never fail. -/
theorem claim_C2 (rtm : Rtmsg) (msg : List Nat)
    (h : rtm.rtm_dst_len ≠ 0 ∨ rtm.rtm_table ≠ RT_TABLE_MAIN) :
    gatewayFromRtm rtm msg = .ok none := by
  unfold gatewayFromRtm
  rw [if_pos h.symm]

/-- C2 witness: a non-default route (prefix length 24) with garbage attribute
bytes still yields "no result" rather than any failure. -/
theorem claim_C2_witness :
    gatewayFromRtm ⟨2, 24, 0, 0, 254, 0, 0, 0, 0⟩ [9, 9, 9] = .ok none :=
  claim_C2 ⟨2, 24, 0, 0, 254, 0, 0, 0, 0⟩ [9, 9, 9] (Or.inl (by decide))

/-- C4: an address message whose attribute scan completes without seeing an
IFA_ADDRESS attribute (for instance only IFA_FLAGS records, or no records at
all) is a decode failure ("Missing address"), never a partial result. -/
theorem claim_C4 (ifa : Ifaddrmsg) (rs : List AttrRec)
    (hwf : ∀ r ∈ rs, r.WF)
    (hnoaddr : ∀ r ∈ rs, r.ty ≠ IFA_ADDRESS)
    (hflags : ∀ r ∈ rs, r.ty = IFA_FLAGS → r.payload.length = 4) :
    addrFromRtm ifa (serializeAttrs rs) = .error .missingAddress := by
  unfold addrFromRtm
  rw [scanAttrs_serializeAttrs _ rs hwf]
  obtain ⟨s', hs'⟩ := addrScan_total ifa.ifa_family rs
    (fun r hr t => absurd t (hnoaddr r hr)) hflags ⟨ifa.ifa_flags, none⟩
  rw [hs']
  have haddr : s'.addr = none := by
    have := (addrScan_char ifa.ifa_family rs _ _ hs').2
    rwa [lastWins_of_not_mem _ _ _ _ hnoaddr] at this
  simp only [bind, Except.bind]
  rw [haddr]

/-- C4 witness: an address message carrying only an IFA_FLAGS attribute fails
with the missing-address decode error. -/
theorem claim_C4_witness :
    addrFromRtm ⟨2, 24, 7, 3, 5⟩
      (serializeAttrs [⟨IFA_FLAGS, [128, 0, 0, 0]⟩]) =
      .error .missingAddress :=
  claim_C4 ⟨2, 24, 7, 3, 5⟩ [⟨IFA_FLAGS, [128, 0, 0, 0]⟩] (by decide)
    (by decide) (by decide)

/-- C10: whenever an address message decodes successfully, the interface
index, the scope and the prefix length of the result are copied verbatim from
the fixed header — no attribute record of any type or content can change
them. -/
theorem claim_C10 (ifa : Ifaddrmsg) (msg : List Nat) (r : AddressInfo)
    (h : addrFromRtm ifa msg = .ok r) :
    r.ifidx = ifa.ifa_index ∧ r.scope = ifa.ifa_scope ∧
      r.ifaddr.2 = ifa.ifa_prefixlen := by
  unfold addrFromRtm at h
  cases hscan : scanAttrs (addrStep ifa.ifa_family) ⟨ifa.ifa_flags, none⟩ msg with
  | error e =>
    rw [hscan] at h
    cases h
  | ok s =>
    rw [hscan] at h
    simp only [bind, Except.bind] at h
    cases ha : s.addr with
    | none => rw [ha] at h; cases h
    | some a =>
      rw [ha] at h
      cases h
      exact ⟨rfl, rfl, rfl⟩

/-- C10 witness: concrete successful decode whose result fields match the
header fields. -/
theorem claim_C10_witness :
    (⟨5, 7, 3, (InAddrAny.v4 [10, 0, 0, 1], 24)⟩ : AddressInfo).ifidx = 5 ∧
    (⟨5, 7, 3, (InAddrAny.v4 [10, 0, 0, 1], 24)⟩ : AddressInfo).scope = 3 ∧
    (⟨5, 7, 3, (InAddrAny.v4 [10, 0, 0, 1], 24)⟩ : AddressInfo).ifaddr.2 = 24 :=
  claim_C10 ⟨2, 24, 7, 3, 5⟩ (serializeAttrs [⟨IFA_ADDRESS, [10, 0, 0, 1]⟩])
    ⟨5, 7, 3, (InAddrAny.v4 [10, 0, 0, 1], 24)⟩
    (by
      unfold addrFromRtm
      rw [scanAttrs_serializeAttrs _ _ (by decide)]
      rfl)

/-- Inversion of a successful address decode: the scan succeeded, produced an
address, and the result is assembled from the header and the final scan
state. -/
theorem addrFromRtm_ok_inv {ifa : Ifaddrmsg} {msg : List Nat} {r : AddressInfo}
    (h : addrFromRtm ifa msg = .ok r) :
    ∃ s a, scanAttrs (addrStep ifa.ifa_family) ⟨ifa.ifa_flags, none⟩ msg = .ok s ∧
      s.addr = some a ∧
      r = ⟨ifa.ifa_index, s.flags, ifa.ifa_scope, (a, ifa.ifa_prefixlen)⟩ := by
  unfold addrFromRtm at h
  cases hscan : scanAttrs (addrStep ifa.ifa_family) ⟨ifa.ifa_flags, none⟩ msg with
  | error e => rw [hscan] at h; cases h
  | ok s =>
    rw [hscan] at h
    simp only [bind, Except.bind] at h
    cases ha : s.addr with
    | none => rw [ha] at h; cases h
    | some a =>
      rw [ha] at h
      cases h
      exact ⟨s, a, rfl, ha, rfl⟩

/-- C5: in every successfully decoded address message, the flags field of the
result is the value of the (last) 32-bit IFA_FLAGS attribute when one is
present, overriding the 8-bit header flags; with no IFA_FLAGS attribute in
the stream it is the header's 8-bit value. -/
theorem claim_C5 :
    (∀ (ifa : Ifaddrmsg) (xs : List AttrRec) (p : List Nat) (ys : List AttrRec)
       (r : AddressInfo),
       (∀ x ∈ xs ++ ⟨IFA_FLAGS, p⟩ :: ys, x.WF) →
       (∀ x ∈ ys, x.ty ≠ IFA_FLAGS) →
       addrFromRtm ifa (serializeAttrs (xs ++ ⟨IFA_FLAGS, p⟩ :: ys)) = .ok r →
       r.flags = decodeU32 p) ∧
    (∀ (ifa : Ifaddrmsg) (rs : List AttrRec) (r : AddressInfo),
       (∀ x ∈ rs, x.WF) →
       (∀ x ∈ rs, x.ty ≠ IFA_FLAGS) →
       addrFromRtm ifa (serializeAttrs rs) = .ok r →
       r.flags = ifa.ifa_flags) := by
  constructor
  · intro ifa xs p ys r hwf hys h
    obtain ⟨s, a, hscan, ha, hr⟩ := addrFromRtm_ok_inv h
    rw [scanAttrs_serializeAttrs _ _ hwf] at hscan
    have hflag := (addrScan_char ifa.ifa_family _ _ _ hscan).1
    rw [lastWins_last _ _ _ _ _ _ hys] at hflag
    rw [hr]
    exact hflag
  · intro ifa rs r hwf hno h
    obtain ⟨s, a, hscan, ha, hr⟩ := addrFromRtm_ok_inv h
    rw [scanAttrs_serializeAttrs _ _ hwf] at hscan
    have hflag := (addrScan_char ifa.ifa_family _ _ _ hscan).1
    rw [lastWins_of_not_mem _ _ _ _ hno] at hflag
    rw [hr]
    exact hflag

/-- C5 witness: header flags 7 with an IFA_FLAGS attribute of 128 decodes to
flags 128; without the attribute it decodes to 7. -/
theorem claim_C5_witness :
    (⟨5, 128, 3, (InAddrAny.v4 [10, 0, 0, 1], 24)⟩ : AddressInfo).flags =
        decodeU32 [128, 0, 0, 0] ∧
    (⟨5, 7, 3, (InAddrAny.v4 [10, 0, 0, 1], 24)⟩ : AddressInfo).flags = 7 :=
  ⟨claim_C5.1 ⟨2, 24, 7, 3, 5⟩ [⟨IFA_ADDRESS, [10, 0, 0, 1]⟩] [128, 0, 0, 0] []
      ⟨5, 128, 3, (InAddrAny.v4 [10, 0, 0, 1], 24)⟩ (by decide) (by decide)
      (by
        unfold addrFromRtm
        rw [scanAttrs_serializeAttrs _ _ (by decide)]
        rfl),
    claim_C5.2 ⟨2, 24, 7, 3, 5⟩ [⟨IFA_ADDRESS, [10, 0, 0, 1]⟩]
      ⟨5, 7, 3, (InAddrAny.v4 [10, 0, 0, 1], 24)⟩ (by decide) (by decide)
      (by
        unfold addrFromRtm
        rw [scanAttrs_serializeAttrs _ _ (by decide)]
        rfl)⟩

/-! Recognized attribute types per decoder, for the skip-unknown property. -/

/-- Attribute types the route decoder's switch recognizes. -/
def routeRecognized (r : AttrRec) : Bool :=
  r.ty == RTA_OIF || r.ty == RTA_GATEWAY

/-- Attribute types the address decoder's switch recognizes. -/
def addrRecognized (r : AttrRec) : Bool :=
  r.ty == IFA_ADDRESS || r.ty == IFA_FLAGS

/-- Attribute types the neighbor decoder's switch recognizes. -/
def neighRecognized (r : AttrRec) : Bool :=
  r.ty == NDA_LLADDR || r.ty == NDA_DST

theorem routeStep_ignored (asize : Nat) (mk : List Nat → InAddrAny) :
    ∀ (s : RouteState) (r : AttrRec), routeRecognized r = false →
      routeStep asize mk s ⟨4 + r.payload.length, r.ty⟩ r.payload = .ok s := by
  intro s r h
  simp only [routeRecognized, Bool.or_eq_false_iff, beq_eq_false_iff_ne] at h
  simp [routeStep, h.1, h.2]

theorem addrStep_ignored (family : Nat) :
    ∀ (s : AddrScanState) (r : AttrRec), addrRecognized r = false →
      addrStep family s ⟨4 + r.payload.length, r.ty⟩ r.payload = .ok s := by
  intro s r h
  simp only [addrRecognized, Bool.or_eq_false_iff, beq_eq_false_iff_ne] at h
  simp [addrStep, h.1, h.2]

theorem neighStep_ignored (family : Nat) :
    ∀ (s : NeighborInfo) (r : AttrRec), neighRecognized r = false →
      neighStep family s ⟨4 + r.payload.length, r.ty⟩ r.payload = .ok s := by
  intro s r h
  simp only [neighRecognized, Bool.or_eq_false_iff, beq_eq_false_iff_ne] at h
  simp [neighStep, h.1, h.2]

/-- C7: for each decoder, attribute records of unrecognized types are skipped
without error: the decode result on a stream equals the result on the same
stream with the unrecognized records removed. -/
theorem claim_C7 :
    (∀ (rtm : Rtmsg) (rs : List AttrRec), (∀ r ∈ rs, r.WF) →
       gatewayFromRtm rtm (serializeAttrs rs) =
         gatewayFromRtm rtm (serializeAttrs (rs.filter routeRecognized))) ∧
    (∀ (ifa : Ifaddrmsg) (rs : List AttrRec), (∀ r ∈ rs, r.WF) →
       addrFromRtm ifa (serializeAttrs rs) =
         addrFromRtm ifa (serializeAttrs (rs.filter addrRecognized))) ∧
    (∀ (ndm : Ndmsg) (rs : List AttrRec), (∀ r ∈ rs, r.WF) →
       neighFromRtm ndm (serializeAttrs rs) =
         neighFromRtm ndm (serializeAttrs (rs.filter neighRecognized))) := by
  refine ⟨?_, ?_, ?_⟩
  · intro rtm rs hwf
    have hwf' : ∀ r ∈ rs.filter routeRecognized, r.WF :=
      fun r hr => hwf r (List.mem_of_mem_filter hr)
    unfold gatewayFromRtm
    by_cases hc : rtm.rtm_table ≠ RT_TABLE_MAIN ∨ rtm.rtm_dst_len ≠ 0
    · rw [if_pos hc, if_pos hc]
    · rw [if_neg hc, if_neg hc]
      by_cases h4 : rtm.rtm_family = AF_INET
      · rw [if_pos h4, if_pos h4]
        unfold parse
        rw [scanAttrs_serializeAttrs _ _ hwf, scanAttrs_serializeAttrs _ _ hwf',
            scanRecs_filter _ routeRecognized (routeStep_ignored 4 InAddrAny.v4) rs]
      · rw [if_neg h4, if_neg h4]
        by_cases h6 : rtm.rtm_family = AF_INET6
        · rw [if_pos h6, if_pos h6]
          unfold parse
          rw [scanAttrs_serializeAttrs _ _ hwf, scanAttrs_serializeAttrs _ _ hwf',
              scanRecs_filter _ routeRecognized (routeStep_ignored 16 InAddrAny.v6) rs]
        · rw [if_neg h6, if_neg h6]
  · intro ifa rs hwf
    have hwf' : ∀ r ∈ rs.filter addrRecognized, r.WF :=
      fun r hr => hwf r (List.mem_of_mem_filter hr)
    unfold addrFromRtm
    rw [scanAttrs_serializeAttrs _ _ hwf, scanAttrs_serializeAttrs _ _ hwf',
        scanRecs_filter _ addrRecognized (addrStep_ignored ifa.ifa_family) rs]
  · intro ndm rs hwf
    have hwf' : ∀ r ∈ rs.filter neighRecognized, r.WF :=
      fun r hr => hwf r (List.mem_of_mem_filter hr)
    unfold neighFromRtm
    rw [scanAttrs_serializeAttrs _ _ hwf, scanAttrs_serializeAttrs _ _ hwf',
        scanRecs_filter _ neighRecognized (neighStep_ignored ndm.ndm_family) rs]

/-- C7 witness: concrete streams holding an unknown attribute type 99 decode
exactly as the same streams with the unknown record removed. -/
theorem claim_C7_witness :
    gatewayFromRtm ⟨2, 0, 0, 0, 254, 0, 0, 0, 0⟩
        (serializeAttrs [⟨99, [1]⟩, ⟨RTA_OIF, [3, 0, 0, 0]⟩,
          ⟨RTA_GATEWAY, [10, 0, 0, 1]⟩]) =
      gatewayFromRtm ⟨2, 0, 0, 0, 254, 0, 0, 0, 0⟩
        (serializeAttrs ([⟨99, [1]⟩, ⟨RTA_OIF, [3, 0, 0, 0]⟩,
          ⟨RTA_GATEWAY, [10, 0, 0, 1]⟩].filter routeRecognized)) ∧
    addrFromRtm ⟨2, 24, 7, 3, 5⟩
        (serializeAttrs [⟨99, [1]⟩, ⟨IFA_ADDRESS, [10, 0, 0, 1]⟩]) =
      addrFromRtm ⟨2, 24, 7, 3, 5⟩
        (serializeAttrs ([⟨99, [1]⟩, ⟨IFA_ADDRESS, [10, 0, 0, 1]⟩].filter
          addrRecognized)) ∧
    neighFromRtm ⟨2, 5, 64, 0, 0⟩ (serializeAttrs [⟨99, [1]⟩]) =
      neighFromRtm ⟨2, 5, 64, 0, 0⟩
        (serializeAttrs ([⟨99, [1]⟩].filter neighRecognized)) :=
  ⟨claim_C7.1 ⟨2, 0, 0, 0, 254, 0, 0, 0, 0⟩ _ (by decide),
   claim_C7.2.1 ⟨2, 24, 7, 3, 5⟩ _ (by decide),
   claim_C7.2.2 ⟨2, 5, 64, 0, 0⟩ _ (by decide)⟩

/-- C9: the neighbor decoder accepts an NDA_LLADDR payload of 6 bytes or more
and stores its first 6 bytes as the MAC (a longer payload is not a failure);
an NDA_LLADDR payload shorter than 6 bytes is a decode failure; and both the
MAC and the destination address are optional, so a neighbor message with no
attributes decodes successfully with both absent. -/
theorem claim_C9 :
    (∀ (ndm : Ndmsg) (p : List Nat), 6 ≤ p.length → 4 + p.length < 65536 →
       neighFromRtm ndm (serializeAttrs [⟨NDA_LLADDR, p⟩]) =
         .ok ⟨ndm.ndm_ifindex, ndm.ndm_state, some (p.take 6), none⟩) ∧
    (∀ (ndm : Ndmsg) (p : List Nat) (ys : List AttrRec), p.length < 6 →
       (∀ x ∈ (⟨NDA_LLADDR, p⟩ : AttrRec) :: ys, x.WF) →
       neighFromRtm ndm (serializeAttrs (⟨NDA_LLADDR, p⟩ :: ys)) =
         .error .copyTooShort) ∧
    (∀ ndm : Ndmsg, neighFromRtm ndm [] =
       .ok ⟨ndm.ndm_ifindex, ndm.ndm_state, none, none⟩) := by
  refine ⟨?_, ?_, ?_⟩
  · intro ndm p hlen hfit
    unfold neighFromRtm
    rw [scanAttrs_serializeAttrs _ _ (by
      intro r hr
      simp only [List.mem_singleton] at hr
      subst hr
      exact ⟨(by decide : NDA_LLADDR < 65536), hfit⟩)]
    rw [scanRecs]
    simp [neighStep, NDA_LLADDR, hlen, scanRecs]
  · intro ndm p ys hlen hwf
    unfold neighFromRtm
    rw [scanAttrs_serializeAttrs _ _ hwf]
    rw [scanRecs]
    simp [neighStep, NDA_LLADDR, Nat.not_le.mpr hlen]
  · intro ndm
    unfold neighFromRtm
    exact scanAttrs_nil _ _

/-- C9 witness: an 8-byte NDA_LLADDR payload is accepted with its first 6
bytes stored; a 5-byte payload fails; an attribute-free message decodes with
both fields absent. -/
theorem claim_C9_witness :
    neighFromRtm ⟨2, 5, 64, 0, 0⟩
        (serializeAttrs [⟨NDA_LLADDR, [1, 2, 3, 4, 5, 6, 7, 8]⟩]) =
      .ok ⟨5, 64, some [1, 2, 3, 4, 5, 6], none⟩ ∧
    neighFromRtm ⟨2, 5, 64, 0, 0⟩
        (serializeAttrs [⟨NDA_LLADDR, [1, 2, 3, 4, 5]⟩]) =
      .error .copyTooShort ∧
    neighFromRtm ⟨2, 5, 64, 0, 0⟩ [] = .ok ⟨5, 64, none, none⟩ :=
  ⟨claim_C9.1 ⟨2, 5, 64, 0, 0⟩ [1, 2, 3, 4, 5, 6, 7, 8] (by decide) (by decide),
   claim_C9.2.1 ⟨2, 5, 64, 0, 0⟩ [1, 2, 3, 4, 5] [] (by decide) (by decide),
   claim_C9.2.2 ⟨2, 5, 64, 0, 0⟩⟩

/-- Inversion of a route decode producing a pair: the scan succeeded with
both optionals populated. -/
theorem parse_ok_some_inv {asize : Nat} {mk : List Nat → InAddrAny}
    {msg : List Nat} {i : Nat} {g : InAddrAny}
    (h : parse asize mk msg = .ok (some (i, g))) :
    ∃ s : RouteState,
      scanAttrs (routeStep asize mk) ⟨none, none⟩ msg = .ok s ∧
      s.ifIdx = some i ∧ s.gw = some g := by
  unfold parse at h
  cases hscan : scanAttrs (routeStep asize mk) ⟨none, none⟩ msg with
  | error e => rw [hscan] at h; cases h
  | ok s =>
    rw [hscan] at h
    simp only [bind, Except.bind] at h
    cases hI : s.ifIdx with
    | none =>
      rw [hI] at h
      simp [pure, Except.pure] at h
    | some i' =>
      cases hG : s.gw with
      | none =>
        rw [hI, hG] at h
        simp [pure, Except.pure] at h
      | some g' =>
        rw [hI, hG] at h
        simp only [pure, Except.pure, Except.ok.injEq, Option.some.injEq,
          Prod.mk.injEq] at h
        obtain ⟨hi, hg⟩ := h
        subst hi
        subst hg
        exact ⟨s, rfl, hI, hG⟩

/-- C3: for each decoder and each recognized attribute type, when the type
occurs more than once in the stream the decode result carries the value of
the last occurrence (overwrite semantics): interface index and gateway for
routes, address and flags for addresses, MAC and destination for
neighbors. -/
theorem claim_C3 :
    (∀ (rtm : Rtmsg) (xs : List AttrRec) (p : List Nat) (ys : List AttrRec)
       (i : Nat) (g : InAddrAny),
       (∀ x ∈ xs ++ (⟨RTA_OIF, p⟩ : AttrRec) :: ys, x.WF) →
       (∃ x ∈ xs, x.ty = RTA_OIF) →
       (∀ x ∈ ys, x.ty ≠ RTA_OIF) →
       gatewayFromRtm rtm (serializeAttrs (xs ++ ⟨RTA_OIF, p⟩ :: ys)) =
         .ok (some (i, g)) →
       i = decodeU32 p) ∧
    (∀ (rtm : Rtmsg) (xs : List AttrRec) (q : List Nat) (ys : List AttrRec)
       (i : Nat) (g : InAddrAny),
       (∀ x ∈ xs ++ (⟨RTA_GATEWAY, q⟩ : AttrRec) :: ys, x.WF) →
       (∃ x ∈ xs, x.ty = RTA_GATEWAY) →
       (∀ x ∈ ys, x.ty ≠ RTA_GATEWAY) →
       gatewayFromRtm rtm (serializeAttrs (xs ++ ⟨RTA_GATEWAY, q⟩ :: ys)) =
         .ok (some (i, g)) →
       g = addrVal rtm.rtm_family q) ∧
    (∀ (ifa : Ifaddrmsg) (xs : List AttrRec) (q : List Nat) (ys : List AttrRec)
       (r : AddressInfo),
       (∀ x ∈ xs ++ (⟨IFA_ADDRESS, q⟩ : AttrRec) :: ys, x.WF) →
       (∃ x ∈ xs, x.ty = IFA_ADDRESS) →
       (∀ x ∈ ys, x.ty ≠ IFA_ADDRESS) →
       addrFromRtm ifa (serializeAttrs (xs ++ ⟨IFA_ADDRESS, q⟩ :: ys)) = .ok r →
       r.ifaddr.1 = addrVal ifa.ifa_family q) ∧
    (∀ (ifa : Ifaddrmsg) (xs : List AttrRec) (p : List Nat) (ys : List AttrRec)
       (r : AddressInfo),
       (∀ x ∈ xs ++ (⟨IFA_FLAGS, p⟩ : AttrRec) :: ys, x.WF) →
       (∃ x ∈ xs, x.ty = IFA_FLAGS) →
       (∀ x ∈ ys, x.ty ≠ IFA_FLAGS) →
       addrFromRtm ifa (serializeAttrs (xs ++ ⟨IFA_FLAGS, p⟩ :: ys)) = .ok r →
       r.flags = decodeU32 p) ∧
    (∀ (ndm : Ndmsg) (xs : List AttrRec) (q : List Nat) (ys : List AttrRec)
       (r : NeighborInfo),
       (∀ x ∈ xs ++ (⟨NDA_LLADDR, q⟩ : AttrRec) :: ys, x.WF) →
       (∃ x ∈ xs, x.ty = NDA_LLADDR) →
       (∀ x ∈ ys, x.ty ≠ NDA_LLADDR) →
       neighFromRtm ndm (serializeAttrs (xs ++ ⟨NDA_LLADDR, q⟩ :: ys)) = .ok r →
       r.mac = some (q.take 6)) ∧
    (∀ (ndm : Ndmsg) (xs : List AttrRec) (q : List Nat) (ys : List AttrRec)
       (r : NeighborInfo),
       (∀ x ∈ xs ++ (⟨NDA_DST, q⟩ : AttrRec) :: ys, x.WF) →
       (∃ x ∈ xs, x.ty = NDA_DST) →
       (∀ x ∈ ys, x.ty ≠ NDA_DST) →
       neighFromRtm ndm (serializeAttrs (xs ++ ⟨NDA_DST, q⟩ :: ys)) = .ok r →
       r.addr = some (addrVal ndm.ndm_family q)) := by
  refine ⟨?_, ?_, ?_, ?_, ?_, ?_⟩
  · intro rtm xs p ys i g hwf hdup hys h
    unfold gatewayFromRtm at h
    by_cases hc : rtm.rtm_table ≠ RT_TABLE_MAIN ∨ rtm.rtm_dst_len ≠ 0
    · rw [if_pos hc] at h
      simp at h
    · rw [if_neg hc] at h
      by_cases h4 : rtm.rtm_family = AF_INET
      · rw [if_pos h4] at h
        obtain ⟨s, hscan, hI, -⟩ := parse_ok_some_inv h
        rw [scanAttrs_serializeAttrs _ _ hwf] at hscan
        have hchar := (routeScan_char 4 InAddrAny.v4 _ _ _ hscan).1
        rw [lastWins_last _ _ _ _ _ _ hys, hI] at hchar
        simpa using hchar
      · rw [if_neg h4] at h
        by_cases h6 : rtm.rtm_family = AF_INET6
        · rw [if_pos h6] at h
          obtain ⟨s, hscan, hI, -⟩ := parse_ok_some_inv h
          rw [scanAttrs_serializeAttrs _ _ hwf] at hscan
          have hchar := (routeScan_char 16 InAddrAny.v6 _ _ _ hscan).1
          rw [lastWins_last _ _ _ _ _ _ hys, hI] at hchar
          simpa using hchar
        · rw [if_neg h6] at h
          simp at h
  · intro rtm xs q ys i g hwf hdup hys h
    unfold gatewayFromRtm at h
    by_cases hc : rtm.rtm_table ≠ RT_TABLE_MAIN ∨ rtm.rtm_dst_len ≠ 0
    · rw [if_pos hc] at h
      simp at h
    · rw [if_neg hc] at h
      by_cases h4 : rtm.rtm_family = AF_INET
      · rw [if_pos h4] at h
        obtain ⟨s, hscan, -, hG⟩ := parse_ok_some_inv h
        rw [scanAttrs_serializeAttrs _ _ hwf] at hscan
        have hchar := (routeScan_char 4 InAddrAny.v4 _ _ _ hscan).2
        rw [lastWins_last _ _ _ _ _ _ hys, hG] at hchar
        rw [addrVal, if_pos h4]
        simpa using hchar
      · rw [if_neg h4] at h
        by_cases h6 : rtm.rtm_family = AF_INET6
        · rw [if_pos h6] at h
          obtain ⟨s, hscan, -, hG⟩ := parse_ok_some_inv h
          rw [scanAttrs_serializeAttrs _ _ hwf] at hscan
          have hchar := (routeScan_char 16 InAddrAny.v6 _ _ _ hscan).2
          rw [lastWins_last _ _ _ _ _ _ hys, hG] at hchar
          rw [addrVal, if_neg h4]
          simpa using hchar
        · rw [if_neg h6] at h
          simp at h
  · intro ifa xs q ys r hwf hdup hys h
    obtain ⟨s, a, hscan, ha, hr⟩ := addrFromRtm_ok_inv h
    rw [scanAttrs_serializeAttrs _ _ hwf] at hscan
    have hchar := (addrScan_char ifa.ifa_family _ _ _ hscan).2
    rw [lastWins_last _ _ _ _ _ _ hys, ha] at hchar
    rw [hr]
    simpa using hchar
  · intro ifa xs p ys r hwf hdup hys h
    obtain ⟨s, a, hscan, ha, hr⟩ := addrFromRtm_ok_inv h
    rw [scanAttrs_serializeAttrs _ _ hwf] at hscan
    have hchar := (addrScan_char ifa.ifa_family _ _ _ hscan).1
    rw [lastWins_last _ _ _ _ _ _ hys] at hchar
    rw [hr]
    exact hchar
  · intro ndm xs q ys r hwf hdup hys h
    unfold neighFromRtm at h
    rw [scanAttrs_serializeAttrs _ _ hwf] at h
    have hchar := (neighScan_char ndm.ndm_family _ _ _ h).1
    rw [lastWins_last _ _ _ _ _ _ hys] at hchar
    exact hchar
  · intro ndm xs q ys r hwf hdup hys h
    unfold neighFromRtm at h
    rw [scanAttrs_serializeAttrs _ _ hwf] at h
    have hchar := (neighScan_char ndm.ndm_family _ _ _ h).2.1
    rw [lastWins_last _ _ _ _ _ _ hys] at hchar
    exact hchar

/-- C3 witness: concrete duplicate-typed streams for all six recognized
attributes; each decode result carries the later occurrence's value. -/
theorem claim_C3_witness :
    (3 = decodeU32 [3, 0, 0, 0]) ∧
    (InAddrAny.v4 [10, 0, 0, 1] = addrVal 2 [10, 0, 0, 1]) ∧
    ((⟨5, 7, 3, (InAddrAny.v4 [10, 0, 0, 1], 24)⟩ : AddressInfo).ifaddr.1 =
      addrVal 2 [10, 0, 0, 1]) ∧
    ((⟨5, 128, 3, (InAddrAny.v4 [10, 0, 0, 1], 24)⟩ : AddressInfo).flags =
      decodeU32 [128, 0, 0, 0]) ∧
    ((⟨5, 64, some [1, 2, 3, 4, 5, 6], none⟩ : NeighborInfo).mac =
      some (List.take 6 [1, 2, 3, 4, 5, 6])) ∧
    ((⟨5, 64, none, some (InAddrAny.v4 [10, 0, 0, 1])⟩ : NeighborInfo).addr =
      some (addrVal 2 [10, 0, 0, 1])) :=
  ⟨claim_C3.1 ⟨2, 0, 0, 0, 254, 0, 0, 0, 0⟩ [⟨RTA_OIF, [9, 0, 0, 0]⟩]
      [3, 0, 0, 0] [⟨RTA_GATEWAY, [10, 0, 0, 1]⟩] 3 (InAddrAny.v4 [10, 0, 0, 1])
      (by decide) (by decide) (by decide)
      (by
        unfold gatewayFromRtm
        rw [if_neg (by decide), if_pos (by decide)]
        unfold parse
        rw [scanAttrs_serializeAttrs _ _ (by decide)]
        rfl),
    claim_C3.2.1 ⟨2, 0, 0, 0, 254, 0, 0, 0, 0⟩
      [⟨RTA_GATEWAY, [1, 1, 1, 1]⟩, ⟨RTA_OIF, [3, 0, 0, 0]⟩] [10, 0, 0, 1] []
      3 (InAddrAny.v4 [10, 0, 0, 1]) (by decide) (by decide) (by decide)
      (by
        unfold gatewayFromRtm
        rw [if_neg (by decide), if_pos (by decide)]
        unfold parse
        rw [scanAttrs_serializeAttrs _ _ (by decide)]
        rfl),
    claim_C3.2.2.1 ⟨2, 24, 7, 3, 5⟩ [⟨IFA_ADDRESS, [9, 9, 9, 9]⟩]
      [10, 0, 0, 1] [] ⟨5, 7, 3, (InAddrAny.v4 [10, 0, 0, 1], 24)⟩
      (by decide) (by decide) (by decide)
      (by
        unfold addrFromRtm
        rw [scanAttrs_serializeAttrs _ _ (by decide)]
        rfl),
    claim_C3.2.2.2.1 ⟨2, 24, 7, 3, 5⟩
      [⟨IFA_FLAGS, [9, 0, 0, 0]⟩, ⟨IFA_ADDRESS, [10, 0, 0, 1]⟩]
      [128, 0, 0, 0] [] ⟨5, 128, 3, (InAddrAny.v4 [10, 0, 0, 1], 24)⟩
      (by decide) (by decide) (by decide)
      (by
        unfold addrFromRtm
        rw [scanAttrs_serializeAttrs _ _ (by decide)]
        rfl),
    claim_C3.2.2.2.2.1 ⟨2, 5, 64, 0, 0⟩ [⟨NDA_LLADDR, [9, 9, 9, 9, 9, 9]⟩]
      [1, 2, 3, 4, 5, 6] [] ⟨5, 64, some [1, 2, 3, 4, 5, 6], none⟩
      (by decide) (by decide) (by decide)
      (by
        unfold neighFromRtm
        rw [scanAttrs_serializeAttrs _ _ (by decide)]
        rfl),
    claim_C3.2.2.2.2.2 ⟨2, 5, 64, 0, 0⟩ [⟨NDA_DST, [9, 9, 9, 9]⟩]
      [10, 0, 0, 1] [] ⟨5, 64, none, some (InAddrAny.v4 [10, 0, 0, 1])⟩
      (by decide) (by decide) (by decide)
      (by
        unfold neighFromRtm
        rw [scanAttrs_serializeAttrs _ _ (by decide)]
        rfl)⟩

/-- Expected gateway payload width selected by the family dispatch in
`gatewayFromRtm`: 4 bytes for AF_INET, 16 for AF_INET6. -/
def gwSize (family : Nat) : Nat := if family = AF_INET then 4 else 16

/-- Full characterization of `parse` on a serialized stream with well-sized
recognized payloads: the pair is returned exactly when both last-occurrence
folds produced a value. -/
theorem parse_ser_char (asize : Nat) (mk : List Nat → InAddrAny)
    (rs : List AttrRec) (hwf : ∀ r ∈ rs, r.WF)
    (hOif : ∀ r ∈ rs, r.ty = RTA_OIF → r.payload.length = 4)
    (hGw : ∀ r ∈ rs, r.ty = RTA_GATEWAY → r.payload.length = asize) :
    parse asize mk (serializeAttrs rs) =
      .ok (match lastWins RTA_OIF (fun p => some (decodeU32 p)) none rs,
             lastWins RTA_GATEWAY (fun p => some (mk p)) none rs with
           | some i, some g => some (i, g)
           | _, _ => none) := by
  obtain ⟨s, hs⟩ := routeScan_total asize mk rs hOif hGw ⟨none, none⟩
  obtain ⟨h1, h2⟩ := routeScan_char asize mk rs _ _ hs
  have h1' : s.ifIdx = lastWins RTA_OIF (fun p => some (decodeU32 p)) none rs := h1
  have h2' : s.gw = lastWins RTA_GATEWAY (fun p => some (mk p)) none rs := h2
  unfold parse
  rw [scanAttrs_serializeAttrs _ _ hwf, hs]
  simp only [bind, Except.bind]
  rw [← h1', ← h2']
  cases s.ifIdx <;> cases s.gw <;> rfl

/-- Swapping an adjacent RTA_OIF/RTA_GATEWAY pair (with well-sized payloads)
does not change the route decode. -/
theorem parse_ser_swap (asize : Nat) (mk : List Nat → InAddrAny)
    (xs ys : List AttrRec) (p q : List Nat)
    (hwf : ∀ x ∈ xs ++ (⟨RTA_OIF, p⟩ : AttrRec) :: ⟨RTA_GATEWAY, q⟩ :: ys, x.WF)
    (hp : p.length = 4) (hq : q.length = asize) :
    parse asize mk (serializeAttrs (xs ++ ⟨RTA_OIF, p⟩ :: ⟨RTA_GATEWAY, q⟩ :: ys)) =
      parse asize mk (serializeAttrs (xs ++ ⟨RTA_GATEWAY, q⟩ :: ⟨RTA_OIF, p⟩ :: ys)) := by
  have hwf2 : ∀ x ∈ xs ++ (⟨RTA_GATEWAY, q⟩ : AttrRec) :: ⟨RTA_OIF, p⟩ :: ys, x.WF := by
    intro x hx
    apply hwf
    simp only [List.mem_append, List.mem_cons] at hx ⊢
    tauto
  unfold parse
  rw [scanAttrs_serializeAttrs _ _ hwf, scanAttrs_serializeAttrs _ _ hwf2]
  have hscan :
      scanRecs (routeStep asize mk) ⟨none, none⟩
        (xs ++ ⟨RTA_OIF, p⟩ :: ⟨RTA_GATEWAY, q⟩ :: ys) =
      scanRecs (routeStep asize mk) ⟨none, none⟩
        (xs ++ ⟨RTA_GATEWAY, q⟩ :: ⟨RTA_OIF, p⟩ :: ys) := by
    rw [scanRecs_append, scanRecs_append]
    cases scanRecs (routeStep asize mk) ⟨none, none⟩ xs with
    | error e => rfl
    | ok s1 =>
      have hA : ∀ s : RouteState,
          routeStep asize mk s ⟨4 + p.length, RTA_OIF⟩ p =
            .ok ⟨some (decodeU32 p), s.gw⟩ := by
        intro s
        simp [routeStep, copyFromStrictU32, hp, Except.map]
      have hB : ∀ s : RouteState,
          routeStep asize mk s ⟨4 + q.length, RTA_GATEWAY⟩ q =
            .ok ⟨s.ifIdx, some (mk q)⟩ := by
        intro s
        simp [routeStep, RTA_OIF, RTA_GATEWAY, hq]
      simp only [scanRecs, hA, hB]
  rw [hscan]

/-- C6: on a main-table default-route message of a supported family whose
recognized payloads are well-sized, the decoder returns the (interface,
gateway) pair exactly when both RTA_OIF and RTA_GATEWAY occur; with either
absent it returns "no result"; and the pair does not depend on the relative
order of the two attributes in the buffer. -/
theorem claim_C6 :
    (∀ (rtm : Rtmsg) (rs : List AttrRec),
       rtm.rtm_table = RT_TABLE_MAIN → rtm.rtm_dst_len = 0 →
       (rtm.rtm_family = AF_INET ∨ rtm.rtm_family = AF_INET6) →
       (∀ r ∈ rs, r.WF) →
       (∀ r ∈ rs, r.ty = RTA_OIF → r.payload.length = 4) →
       (∀ r ∈ rs, r.ty = RTA_GATEWAY → r.payload.length = gwSize rtm.rtm_family) →
       (∃ r ∈ rs, r.ty = RTA_OIF) → (∃ r ∈ rs, r.ty = RTA_GATEWAY) →
       ∃ i g, gatewayFromRtm rtm (serializeAttrs rs) = .ok (some (i, g))) ∧
    (∀ (rtm : Rtmsg) (rs : List AttrRec),
       rtm.rtm_table = RT_TABLE_MAIN → rtm.rtm_dst_len = 0 →
       (rtm.rtm_family = AF_INET ∨ rtm.rtm_family = AF_INET6) →
       (∀ r ∈ rs, r.WF) →
       (∀ r ∈ rs, r.ty = RTA_OIF → r.payload.length = 4) →
       (∀ r ∈ rs, r.ty = RTA_GATEWAY → r.payload.length = gwSize rtm.rtm_family) →
       (∀ r ∈ rs, r.ty ≠ RTA_OIF) →
       gatewayFromRtm rtm (serializeAttrs rs) = .ok none) ∧
    (∀ (rtm : Rtmsg) (rs : List AttrRec),
       rtm.rtm_table = RT_TABLE_MAIN → rtm.rtm_dst_len = 0 →
       (rtm.rtm_family = AF_INET ∨ rtm.rtm_family = AF_INET6) →
       (∀ r ∈ rs, r.WF) →
       (∀ r ∈ rs, r.ty = RTA_OIF → r.payload.length = 4) →
       (∀ r ∈ rs, r.ty = RTA_GATEWAY → r.payload.length = gwSize rtm.rtm_family) →
       (∀ r ∈ rs, r.ty ≠ RTA_GATEWAY) →
       gatewayFromRtm rtm (serializeAttrs rs) = .ok none) ∧
    (∀ (rtm : Rtmsg) (xs ys : List AttrRec) (p q : List Nat),
       (∀ x ∈ xs ++ (⟨RTA_OIF, p⟩ : AttrRec) :: ⟨RTA_GATEWAY, q⟩ :: ys, x.WF) →
       p.length = 4 → q.length = gwSize rtm.rtm_family →
       gatewayFromRtm rtm
           (serializeAttrs (xs ++ ⟨RTA_OIF, p⟩ :: ⟨RTA_GATEWAY, q⟩ :: ys)) =
         gatewayFromRtm rtm
           (serializeAttrs (xs ++ ⟨RTA_GATEWAY, q⟩ :: ⟨RTA_OIF, p⟩ :: ys))) := by
  refine ⟨?_, ?_, ?_, ?_⟩
  · intro rtm rs hta hds hfam hwf hOif hGw hhasO hhasG
    unfold gatewayFromRtm
    rw [if_neg (by simp [hta, hds])]
    obtain ⟨i, hi⟩ := lastWins_some_of_mem RTA_OIF decodeU32 none rs hhasO
    rcases hfam with h4 | h6
    · rw [if_pos h4]
      rw [parse_ser_char 4 InAddrAny.v4 rs hwf hOif
        (by simpa [gwSize, h4] using hGw)]
      obtain ⟨g, hg⟩ := lastWins_some_of_mem RTA_GATEWAY InAddrAny.v4 none rs hhasG
      rw [hi, hg]
      exact ⟨i, g, rfl⟩
    · have h4 : rtm.rtm_family ≠ AF_INET := by
        rw [h6]
        decide
      rw [if_neg h4, if_pos h6]
      rw [parse_ser_char 16 InAddrAny.v6 rs hwf hOif
        (by simpa [gwSize, h4] using hGw)]
      obtain ⟨g, hg⟩ := lastWins_some_of_mem RTA_GATEWAY InAddrAny.v6 none rs hhasG
      rw [hi, hg]
      exact ⟨i, g, rfl⟩
  · intro rtm rs hta hds hfam hwf hOif hGw hnoO
    unfold gatewayFromRtm
    rw [if_neg (by simp [hta, hds])]
    have hnone := lastWins_of_not_mem RTA_OIF
      (fun p => some (decodeU32 p)) none rs hnoO
    rcases hfam with h4 | h6
    · rw [if_pos h4]
      rw [parse_ser_char 4 InAddrAny.v4 rs hwf hOif
        (by simpa [gwSize, h4] using hGw)]
      rw [hnone]
    · have h4 : rtm.rtm_family ≠ AF_INET := by
        rw [h6]
        decide
      rw [if_neg h4, if_pos h6]
      rw [parse_ser_char 16 InAddrAny.v6 rs hwf hOif
        (by simpa [gwSize, h4] using hGw)]
      rw [hnone]
  · intro rtm rs hta hds hfam hwf hOif hGw hnoG
    unfold gatewayFromRtm
    rw [if_neg (by simp [hta, hds])]
    rcases hfam with h4 | h6
    · rw [if_pos h4]
      rw [parse_ser_char 4 InAddrAny.v4 rs hwf hOif
        (by simpa [gwSize, h4] using hGw)]
      rw [lastWins_of_not_mem RTA_GATEWAY
        (fun p => some (InAddrAny.v4 p)) none rs hnoG]
      cases lastWins RTA_OIF (fun p => some (decodeU32 p)) none rs <;> rfl
    · have h4 : rtm.rtm_family ≠ AF_INET := by
        rw [h6]
        decide
      rw [if_neg h4, if_pos h6]
      rw [parse_ser_char 16 InAddrAny.v6 rs hwf hOif
        (by simpa [gwSize, h4] using hGw)]
      rw [lastWins_of_not_mem RTA_GATEWAY
        (fun p => some (InAddrAny.v6 p)) none rs hnoG]
      cases lastWins RTA_OIF (fun p => some (decodeU32 p)) none rs <;> rfl
  · intro rtm xs ys p q hwf hp hq
    unfold gatewayFromRtm
    by_cases hc : rtm.rtm_table ≠ RT_TABLE_MAIN ∨ rtm.rtm_dst_len ≠ 0
    · rw [if_pos hc, if_pos hc]
    · rw [if_neg hc, if_neg hc]
      by_cases h4 : rtm.rtm_family = AF_INET
      · rw [if_pos h4, if_pos h4]
        exact parse_ser_swap 4 InAddrAny.v4 xs ys p q hwf hp
          (by simpa [gwSize, h4] using hq)
      · rw [if_neg h4, if_neg h4]
        by_cases h6 : rtm.rtm_family = AF_INET6
        · rw [if_pos h6, if_pos h6]
          exact parse_ser_swap 16 InAddrAny.v6 xs ys p q hwf hp
            (by simpa [gwSize, h4] using hq)
        · rw [if_neg h6, if_neg h6]

/-- C6 witness: with both attributes present the pair is returned; dropping
either one yields "no result"; and the two orderings of the pair decode
identically. -/
theorem claim_C6_witness :
    (∃ i g, gatewayFromRtm ⟨2, 0, 0, 0, 254, 0, 0, 0, 0⟩
        (serializeAttrs [⟨RTA_OIF, [3, 0, 0, 0]⟩, ⟨RTA_GATEWAY, [10, 0, 0, 1]⟩]) =
      .ok (some (i, g))) ∧
    gatewayFromRtm ⟨2, 0, 0, 0, 254, 0, 0, 0, 0⟩
        (serializeAttrs [⟨RTA_GATEWAY, [10, 0, 0, 1]⟩]) = .ok none ∧
    gatewayFromRtm ⟨2, 0, 0, 0, 254, 0, 0, 0, 0⟩
        (serializeAttrs [⟨RTA_OIF, [3, 0, 0, 0]⟩]) = .ok none ∧
    gatewayFromRtm ⟨2, 0, 0, 0, 254, 0, 0, 0, 0⟩
        (serializeAttrs [⟨RTA_OIF, [3, 0, 0, 0]⟩, ⟨RTA_GATEWAY, [10, 0, 0, 1]⟩]) =
      gatewayFromRtm ⟨2, 0, 0, 0, 254, 0, 0, 0, 0⟩
        (serializeAttrs [⟨RTA_GATEWAY, [10, 0, 0, 1]⟩, ⟨RTA_OIF, [3, 0, 0, 0]⟩]) :=
  ⟨claim_C6.1 ⟨2, 0, 0, 0, 254, 0, 0, 0, 0⟩
      [⟨RTA_OIF, [3, 0, 0, 0]⟩, ⟨RTA_GATEWAY, [10, 0, 0, 1]⟩] rfl rfl
      (Or.inl rfl) (by decide) (by decide) (by decide) (by decide) (by decide),
   claim_C6.2.1 ⟨2, 0, 0, 0, 254, 0, 0, 0, 0⟩ [⟨RTA_GATEWAY, [10, 0, 0, 1]⟩]
      rfl rfl (Or.inl rfl) (by decide) (by decide) (by decide) (by decide),
   claim_C6.2.2.1 ⟨2, 0, 0, 0, 254, 0, 0, 0, 0⟩ [⟨RTA_OIF, [3, 0, 0, 0]⟩]
      rfl rfl (Or.inl rfl) (by decide) (by decide) (by decide) (by decide),
   claim_C6.2.2.2 ⟨2, 0, 0, 0, 254, 0, 0, 0, 0⟩ [] [] [3, 0, 0, 0] [10, 0, 0, 1]
      (by decide) (by decide) (by decide)⟩

/-- C8: the attribute-record extraction fails on a buffer shorter than the
4-byte record header; it fails whenever the declared length is below the
header size or beyond the remaining buffer; on success the payload is the
bytes from the header size up to the declared length and the remainder
starts at the declared length rounded up to a 4-byte boundary, with a
failure when that rounded offset exceeds the buffer length. -/
theorem claim_C8 :
    (∀ buf : List Nat, buf.length < 4 →
       extractRtAttr buf = .error .truncatedBuffer) ∧
    (∀ (l0 l1 t0 t1 : Nat) (tl : List Nat),
       decodeU16 l0 l1 < 4 ∨
         (l0 :: l1 :: t0 :: t1 :: tl).length < decodeU16 l0 l1 →
       extractRtAttr (l0 :: l1 :: t0 :: t1 :: tl) = .error .badAttrLength) ∧
    (∀ (l0 l1 t0 t1 : Nat) (tl : List Nat),
       4 ≤ decodeU16 l0 l1 →
       decodeU16 l0 l1 ≤ (l0 :: l1 :: t0 :: t1 :: tl).length →
       (l0 :: l1 :: t0 :: t1 :: tl).length < align4 (decodeU16 l0 l1) →
       extractRtAttr (l0 :: l1 :: t0 :: t1 :: tl) = .error .badAttrLength) ∧
    (∀ (l0 l1 t0 t1 : Nat) (tl : List Nat),
       4 ≤ decodeU16 l0 l1 →
       decodeU16 l0 l1 ≤ (l0 :: l1 :: t0 :: t1 :: tl).length →
       align4 (decodeU16 l0 l1) ≤ (l0 :: l1 :: t0 :: t1 :: tl).length →
       extractRtAttr (l0 :: l1 :: t0 :: t1 :: tl) =
         .ok (⟨decodeU16 l0 l1, decodeU16 t0 t1⟩,
              tl.take (decodeU16 l0 l1 - 4),
              tl.drop (align4 (decodeU16 l0 l1) - 4))) := by
  refine ⟨?_, ?_, ?_, ?_⟩
  · intro buf h
    match buf with
    | [] => rfl
    | [_] => rfl
    | [_, _] => rfl
    | [_, _, _] => rfl
    | _ :: _ :: _ :: _ :: _ =>
      simp only [List.length_cons] at h
      omega
  · intro l0 l1 t0 t1 tl h
    simp only [extractRtAttr]
    by_cases h4 : decodeU16 l0 l1 < 4
    · rw [if_pos h4]
    · rw [if_neg h4,
        if_pos (show decodeU16 l0 l1 > (l0 :: l1 :: t0 :: t1 :: tl).length by
          rcases h with h | h
          · omega
          · exact h)]
  · intro l0 l1 t0 t1 tl h1 h2 h3
    simp only [extractRtAttr]
    rw [if_neg (Nat.not_lt.mpr h1), if_neg (Nat.not_lt.mpr h2), if_pos h3]
  · intro l0 l1 t0 t1 tl h1 h2 h3
    obtain ⟨k, hk⟩ : ∃ k, decodeU16 l0 l1 = 4 + k :=
      ⟨decodeU16 l0 l1 - 4, by omega⟩
    obtain ⟨m, hm⟩ : ∃ m, align4 (decodeU16 l0 l1) = 4 + m :=
      ⟨align4 (decodeU16 l0 l1) - 4, by
        have := align4_pos (decodeU16 l0 l1) h1
        omega⟩
    have htake :
        (((l0 :: l1 :: t0 :: t1 :: tl).take (4 + k)).drop 4 : List Nat) =
          tl.take k := by
      rw [show 4 + k = k + 4 from by omega]
      rfl
    have hdrop :
        ((l0 :: l1 :: t0 :: t1 :: tl).drop (4 + m) : List Nat) = tl.drop m := by
      rw [show 4 + m = m + 4 from by omega]
      rfl
    simp only [extractRtAttr]
    rw [if_neg (Nat.not_lt.mpr h1), if_neg (Nat.not_lt.mpr h2),
      if_neg (Nat.not_lt.mpr h3)]
    rw [hm, hk, htake, hdrop]
    rw [show 4 + k - 4 = k from by omega, show 4 + m - 4 = m from by omega]

/-- C8 witness: a 3-byte buffer is truncated; a declared length of 2 fails; a
declared length of 5 in a 5-byte buffer fails on the aligned offset 8; a
declared length of 5 in an 8-byte buffer succeeds with a 1-byte payload and
an empty remainder. -/
theorem claim_C8_witness :
    extractRtAttr [1, 2, 3] = .error .truncatedBuffer ∧
    extractRtAttr [2, 0, 0, 0] = .error .badAttrLength ∧
    extractRtAttr [5, 0, 7, 0, 9] = .error .badAttrLength ∧
    extractRtAttr [5, 0, 7, 0, 99, 0, 0, 0] = .ok (⟨5, 7⟩, [99], []) :=
  ⟨claim_C8.1 [1, 2, 3] (by decide),
   claim_C8.2.1 2 0 0 0 [] (Or.inl (by decide)),
   claim_C8.2.2.1 5 0 7 0 [9] (by decide) (by decide) (by decide),
   claim_C8.2.2.2 5 0 7 0 [99, 0, 0, 0] (by decide) (by decide) (by decide)⟩

end Netlink
